import Mathlib

/-!
Verification of the Job-Scraper repository.

The repository drives a browser over two job-listing sites (TimesJobs and
Talent.com), parses the rendered HTML with BeautifulSoup, and normalizes
results into one record schema.  We embed the HTML documents as a small
tree type and translate the parsing / extraction / orchestration functions
from `src/scraper/Timejobs_scraper.py`, `src/scraper/Talent_scraper.py`
and `src/main.py` into Lean.  Browser interaction is abstracted as an
environment mapping page numbers / URLs to either a parsed document or a
raised exception.
-/

set_option autoImplicit false

namespace JobScraper

/-! ## Python string primitives -/

/-- Python `str.lower()` (ASCII case folding suffices for the phrases used). -/
def lowerStr (s : String) : String :=
  String.mk (s.toList.map Char.toLower)

/-- Is the first list a leading segment of the second? -/
def preList : List Char → List Char → Bool
  | [], _ => true
  | _ :: _, [] => false
  | a :: as, b :: bs => a == b && preList as bs

/-- Does the pattern occur contiguously in the haystack? -/
def subList (p : List Char) : List Char → Bool
  | [] => preList p []
  | b :: bs => preList p (b :: bs) || subList p bs

/-- Python `pat in hay` for strings. -/
def strHas (hay pat : String) : Bool :=
  subList pat.toList hay.toList

/-- Python `str.isdigit()` (ASCII digits). -/
def pyIsDigit (s : String) : Bool :=
  !s.isEmpty && s.toList.all Char.isDigit

/-- Python `int(s)` on a digit string. -/
def digitsVal (s : String) : Nat :=
  s.toList.foldl (fun a c => a * 10 + (c.toNat - 48)) 0

/-- Everything after the first occurrence of the character `c`. -/
def afterChar (c : Char) : List Char → List Char
  | [] => []
  | a :: as => if a == c then as else afterChar c as

/-- Python `s.split(":", 1)[1]` (callers guard that a colon is present). -/
def pyAfterColon (s : String) : String :=
  String.mk (afterChar ':' s.toList)

/-- Python `line.rstrip("\n")`. -/
def rstripNl (s : String) : String :=
  String.mk ((s.toList.reverse.dropWhile (fun c => c == '\n')).reverse)

/-- Python `str.strip()`: trim whitespace on both ends. -/
def pyStrip (s : String) : String :=
  String.mk
    (((s.toList.dropWhile Char.isWhitespace).reverse.dropWhile Char.isWhitespace).reverse)

/-- Python `s.startswith(pre)`. -/
def pyStartsWith (s pre : String) : Bool :=
  preList pre.toList s.toList

/-- Drop the first `n` characters (`s[n:]`). -/
def dropStr (s : String) (n : Nat) : String :=
  String.mk (s.toList.drop n)

/-- Maximal non-whitespace runs of a character list. -/
def wsTokens : List Char → List (List Char)
  | [] => []
  | c :: cs =>
    if c.isWhitespace then wsTokens cs
    else
      match wsTokens cs with
      | [] => [[c]]
      | t :: ts =>
        match cs with
        | [] => [[c]]
        | d :: _ => if d.isWhitespace then [c] :: t :: ts else (c :: t) :: ts

/-- Python `s.split()`: whitespace-separated tokens, empties discarded. -/
def pySplitWs (s : String) : List String :=
  (wsTokens s.toList).map String.mk

/-! ## HTML document model (as produced by BeautifulSoup) -/

/-- A parsed HTML node: a tag with attributes and children, or a text node. -/
inductive Node where
  | text : String → Node
  | elem : String → List (String × String) → List Node → Node

/-- A parsed document: the top-level sequence of nodes. -/
abbrev Soup := List Node

/-- Attribute lookup (`tag.get(name)`). -/
def attrOf (n : Node) (k : String) : Option String :=
  match n with
  | Node.text _ => none
  | Node.elem _ attrs _ => (attrs.find? (fun p => p.1 == k)).map (fun p => p.2)

/-- Tag name (`tag.name`); text nodes have none. -/
def nameOf (n : Node) : Option String :=
  match n with
  | Node.text _ => none
  | Node.elem nm _ _ => some nm

/-- Is this an element with the given tag name? -/
def hasName (n : Node) (nm : String) : Bool :=
  match n with
  | Node.text _ => false
  | Node.elem m _ _ => m == nm

/-- Is this node an element (a BeautifulSoup `Tag`)? -/
def isElem : Node → Bool
  | Node.text _ => false
  | Node.elem _ _ _ => true

/-- The multi-valued `class` attribute, split on whitespace as BeautifulSoup does. -/
def classesOf (n : Node) : List String :=
  match attrOf n "class" with
  | none => []
  | some v => pySplitWs v

/-- BeautifulSoup match of a string-valued `class_` filter against a
multi-valued class attribute: any single class equals the string, or the
whitespace-joined class list equals it. -/
def classEq (n : Node) (s : String) : Bool :=
  (classesOf n).contains s || String.intercalate " " (classesOf n) == s

/-- BeautifulSoup match of a callable `class_` filter of the shape
`lambda c: c and sub in c`: some single class contains the substring. -/
def classHasSub (n : Node) (sub : String) : Bool :=
  (classesOf n).any (fun c => strHas c sub)

/-! ### Traversal

`get_text` collects descendant strings in document order; `find_all` needs
pre-order element traversal, and the scrapers additionally use
`find_parent` and `find_next_siblings`, so the traversal also records each
element's ancestor chain (nearest first) and its following element
siblings. -/

mutual

/-- Strings of all descendant text nodes, in document order. -/
def textsOfNode : Node → List String
  | Node.text s => [s]
  | Node.elem _ _ cs => textsOfList cs

/-- Strings of descendant text nodes of a node list, in document order. -/
def textsOfList : List Node → List String
  | [] => []
  | c :: r => textsOfNode c ++ textsOfList r

end

/-- BeautifulSoup `get_text(sep, strip)` on one tag. -/
def getTextSep (sep : String) (strip : Bool) (n : Node) : String :=
  let ts := textsOfNode n
  if strip then String.intercalate sep ((ts.map pyStrip).filter (fun t => t ≠ ""))
  else String.intercalate sep ts

/-- `soup.get_text()` on the whole document. -/
def soupTextRaw (soup : Soup) : String :=
  String.intercalate "" (textsOfList soup)

/-- An element together with its ancestor chain (nearest first) and its
following element siblings, as needed for `find_parent` and
`find_next_siblings`. -/
structure SNode where
  node : Node
  ancestors : List Node
  fsibs : List Node

mutual

/-- Pre-order walk of one node, given ancestors and following element siblings. -/
def walkNode (anc : List Node) (fs : List Node) : Node → List SNode
  | Node.text _ => []
  | Node.elem nm attrs cs =>
    ⟨Node.elem nm attrs cs, anc, fs⟩ :: walkList (Node.elem nm attrs cs :: anc) cs

/-- Pre-order walk of a sibling list. -/
def walkList (anc : List Node) : List Node → List SNode
  | [] => []
  | c :: rest => walkNode anc (rest.filter isElem) c ++ walkList anc rest

end

/-- All elements of the document, pre-order, with context. -/
def docItems (soup : Soup) : List SNode :=
  walkList [] soup

/-- Elements strictly below a node (BeautifulSoup `tag.find_all` scope). -/
def descItems (n : Node) : List SNode :=
  match n with
  | Node.text _ => []
  | Node.elem _ _ cs => walkList [n] cs

/-- `tag.find(...)` inside a subtree: first matching descendant. -/
def findFirstIn (n : Node) (p : SNode → Bool) : Option Node :=
  (((descItems n).filter p).head?).map (fun it => it.node)

/-! ## TimesJobs scraper (`src/scraper/Timejobs_scraper.py`) -/

/-- A `{title, url}` pair collected from a listing page (spec: JobStub). -/
structure Stub where
  title : String
  url : String
deriving DecidableEq, Repr

/-- A scraped record, as the Python dict: ordered key/value pairs. -/
abbrev Rec := List (String × String)

/-- The keys of a record, in insertion order. -/
def keysOf (r : Rec) : List String :=
  r.map Prod.fst

/-- `check_for_no_results`: the page's whole text, lowercased, contains one
of the two known phrases. -/
def check_for_no_results (soup : Soup) : Bool :=
  let t := lowerStr (soupTextRaw soup)
  strHas t "no jobs matching" || strHas t "no results found"

/-- Stripped texts of all `button` elements, in document order. -/
def buttonTexts (soup : Soup) : List String :=
  ((docItems soup).filter (fun it => hasName it.node "button")).map
    (fun it => getTextSep "" true it.node)

/-- `get_total_pages`: maximum numeric button label greater than 1, else 1. -/
def get_total_pages (soup : Soup) : Nat :=
  (buttonTexts soup).foldl
    (fun m t =>
      if pyIsDigit t then
        if digitsVal t > 1 then max m (digitsVal t) else m
      else m)
    1

/-- Anchors with an `href` attribute (`soup.find_all('a', href=True)`). -/
def anchorsOf (soup : Soup) : List SNode :=
  (docItems soup).filter (fun it => hasName it.node "a" && (attrOf it.node "href").isSome)

/-- `link.get('href', '')`. -/
def hrefOf (it : SNode) : String :=
  (attrOf it.node "href").getD ""

/-- `link.find_parent('div')`: nearest `div` ancestor. -/
def divAncestor (it : SNode) : Option Node :=
  it.ancestors.find? (fun a => hasName a "div")

/-- Title resolution for one candidate link: the stripped text of the first
`h2` inside the link's nearest `div` ancestor, defaulting to `"N/A"`. -/
def anchorTitle (it : SNode) : String :=
  match divAncestor it with
  | none => "N/A"
  | some d =>
    match findFirstIn d (fun j => hasName j.node "h2") with
    | none => "N/A"
    | some h => getTextSep "" true h

/-- The loop body of `extract_jobs_from_page`: walk the candidate links with
a seen-href set, skipping non-job-detail links, deduplicating by raw href,
and emitting a stub only when the title resolves to real text. -/
def jobsLoop (base : String) (seen : List String) : List SNode → List Stub
  | [] => []
  | it :: rest =>
    if !(strHas (hrefOf it) "/job-detail/") then jobsLoop base seen rest
    else if seen.contains (hrefOf it) then jobsLoop base seen rest
    else if anchorTitle it ≠ "" && anchorTitle it ≠ "N/A" then
      ⟨anchorTitle it,
       if pyStartsWith (hrefOf it) "/" then base ++ hrefOf it else hrefOf it⟩ ::
        jobsLoop base (hrefOf it :: seen) rest
    else jobsLoop base (hrefOf it :: seen) rest

/-- The seen-href set after the loop has processed a list of links. -/
def seenAfter (seen : List String) : List SNode → List String
  | [] => seen
  | it :: rest =>
    if !(strHas (hrefOf it) "/job-detail/") then seenAfter seen rest
    else if seen.contains (hrefOf it) then seenAfter seen rest
    else seenAfter (hrefOf it :: seen) rest

/-- `extract_jobs_from_page`. -/
def extract_jobs_from_page (soup : Soup)
    (base : String := "https://www.timesjobs.com") : List Stub :=
  jobsLoop base [] (anchorsOf soup)

/-! ### TimesJobs detail-page field extractors

Python functions may raise; an extractor is embedded as
`Except Unit String`, with `Except.error` standing for an uncaught
exception escaping the extractor. -/

/-- `extract_company_from_detail`: first `h3` whose class is `inline mr-2`. -/
def extract_company_from_detail (soup : Soup) : Except Unit String :=
  Except.ok
    (match (docItems soup).find?
        (fun it => hasName it.node "h3" && classEq it.node "inline mr-2") with
     | some it => getTextSep "" true it.node
     | none => "N/A")

/-- `text and len(text) > 50` (nonempty is implied by the length bound). -/
def longEnough (t : String) : Bool :=
  t.length > 50

/-- First `div` whose class list has a class containing `rtd-content`. -/
def rtdDiv (soup : Soup) : Option Node :=
  ((((docItems soup).filter
      (fun it => hasName it.node "div" && classHasSub it.node "rtd-content")).head?).map
    (fun it => it.node))

/-- `div`/`section`/`article` blocks class-matched for description fallbacks. -/
def descBlocks (soup : Soup) : List Node :=
  (((docItems soup).filter
      (fun it =>
        (hasName it.node "div" || hasName it.node "section" || hasName it.node "article") &&
        (classHasSub it.node "jd-cont" || classHasSub it.node "job-desc" ||
          classHasSub it.node "job-description"))).map (fun it => it.node))

/-- First fallback block whose space-joined text is long enough. -/
def firstLongBlockText : List Node → Option String
  | [] => none
  | b :: r =>
    let t := getTextSep " " true b
    if longEnough t then some t else firstLongBlockText r

/-- First `h2`–`h5` heading whose stripped text contains `description`. -/
def descHeading (soup : Soup) : Option SNode :=
  ((docItems soup).filter
    (fun it =>
      (hasName it.node "h2" || hasName it.node "h3" || hasName it.node "h4" ||
        hasName it.node "h5") &&
      strHas (lowerStr (getTextSep "" true it.node)) "description")).head?

/-- Nonempty space-stripped texts of a heading's following element siblings. -/
def sibParts (it : SNode) : List String :=
  (it.fsibs.map (getTextSep " " true)).filter (fun t => t ≠ "")

/-- Fallback chain of `extract_description_from_detail` after the
`rtd-content` attempt: class-matched blocks, then heading siblings. -/
def descAfterRtd (soup : Soup) : String :=
  match firstLongBlockText (descBlocks soup) with
  | some t => t
  | none =>
    match descHeading soup with
    | none => "N/A"
    | some it =>
      let ps := sibParts it
      if ps.isEmpty then "N/A" else String.intercalate " " ps

/-- `extract_description_from_detail`. -/
def extract_description_from_detail (soup : Soup) : Except Unit String :=
  Except.ok
    (match rtdDiv soup with
     | some rtd =>
       let t := getTextSep " " true rtd
       if longEnough t then t else descAfterRtd soup
     | none => descAfterRtd soup)

/-- First `h2`–`h5`/`heading` element whose text contains `key skill`. -/
def skillsHeading (soup : Soup) : Option SNode :=
  ((docItems soup).filter
    (fun it =>
      (hasName it.node "h2" || hasName it.node "h3" || hasName it.node "h4" ||
        hasName it.node "h5" || hasName it.node "heading") &&
      strHas (lowerStr (getTextSep "" true it.node)) "key skill")).head?

/-- The hardcoded non-skill words excluded from the skills sibling scan. -/
def skillExcludeWords : List String :=
  ["year", "experience", "about", "company", "description",
   "required", "please", "call", "opening", "job id", "location"]

/-- Does the sibling text contain one of the excluded words? -/
def skillExcluded (t : String) : Bool :=
  skillExcludeWords.any (fun w => strHas (lowerStr t) w)

/-- Does the element's tag name start with `h` (skills scan stop condition)? -/
def nameStartsH (n : Node) : Bool :=
  match nameOf n with
  | some nm => pyStartsWith (lowerStr nm) "h"
  | none => false

/-- The skills sibling scan: stop at the next heading, keep nonempty
non-excluded texts. -/
def collectSkills : List Node → List String
  | [] => []
  | s :: r =>
    if nameStartsH s then []
    else
      let t := getTextSep "" true s
      if t ≠ "" && !(skillExcluded t) then t :: collectSkills r
      else collectSkills r

/-- `extract_skills_from_detail`. -/
def extract_skills_from_detail (soup : Soup) : Except Unit String :=
  Except.ok
    (match skillsHeading soup with
     | none => "N/A"
     | some it =>
       let sk := collectSkills it.fsibs
       if sk.isEmpty then "N/A" else String.intercalate ", " sk)

/-- The fixed-position `span` elements of class `mr-2 inline flex items-center`. -/
def mrSpans (soup : Soup) : List Node :=
  (((docItems soup).filter
      (fun it => hasName it.node "span" &&
        classEq it.node "mr-2 inline flex items-center")).map (fun it => it.node))

/-- `extract_experience_from_detail`: unguarded `spans[1]`; raises
(`Except.error`) when fewer than two such spans exist. -/
def extract_experience_from_detail (soup : Soup) : Except Unit String :=
  match (mrSpans soup).get? 1 with
  | some sp => Except.ok (getTextSep "" true sp)
  | none => Except.error ()

/-- `extract_salary_from_detail`: guarded `spans[2]`, sentinel otherwise. -/
def extract_salary_from_detail (soup : Soup) : Except Unit String :=
  Except.ok
    (match mrSpans soup with
     | _ :: _ :: s3 :: _ => getTextSep " " true s3
     | _ => "N/A")

/-- The label scan loop of `extract_label_value` over candidate elements. -/
def labelLoop (target : String) : List Node → String
  | [] => "N/A"
  | t :: r =>
    let txt := getTextSep " " true t
    if pyStartsWith (lowerStr txt) target then pyStrip (pyAfterColon txt)
    else labelLoop target r

/-- `extract_label_value`: first `li`/`div`/`span`/`p` whose text starts
with `<label>:` (case-insensitively); returns the trimmed remainder. -/
def extract_label_value (soup : Soup) (label : String) : Except Unit String :=
  Except.ok
    (labelLoop (lowerStr (label ++ ":"))
      ((((docItems soup).filter
          (fun it => hasName it.node "li" || hasName it.node "div" ||
            hasName it.node "span" || hasName it.node "p")).map (fun it => it.node))))

/-! ### TimesJobs crawl orchestration -/

/-- The browsed site, abstracting the driver: loading a listing page (by
page number) or a detail page (by URL) either yields a parsed document or
raises. -/
structure TJEnv where
  listing : Nat → Except Unit Soup
  detail : String → Except Unit Soup

/-- The observable outcome of one `scrape_all_jobs` call: returned records,
listing pages requested (in order, with repetitions), detail URLs
requested, and how many times the driver was quit. -/
structure TJRun where
  result : List Rec
  listingVisits : List Nat
  detailVisits : List String
  quits : Nat
deriving DecidableEq, Repr

/-- The TimesJobs record dict literal, in source key order. -/
def mkTJRec (title url company desc exp sal jf ind sp gc pgc et jt g sk : String) : Rec :=
  [("source", "TimesJobs"), ("title", title), ("company", company), ("url", url),
   ("description", desc), ("experience", exp), ("salary", sal),
   ("job_function", jf), ("industry", ind), ("specialization", sp),
   ("graduate_courses", gc), ("post_graduate_courses", pgc),
   ("employment_type", et), ("job_type", jt), ("gender", g), ("skills", sk)]

/-- Phase 1 page loop: per-page exceptions are skipped (`continue`), a
no-results page stops the walk (`break`); returns collected stubs and the
pages actually requested. -/
def tjWalk (env : TJEnv) : List Nat → List Stub × List Nat
  | [] => ([], [])
  | p :: rest =>
    match env.listing p with
    | Except.error _ =>
      let pr := tjWalk env rest
      (pr.1, p :: pr.2)
    | Except.ok soup =>
      if check_for_no_results soup then ([], [p])
      else
        let pr := tjWalk env rest
        (extract_jobs_from_page soup ++ pr.1, p :: pr.2)

/-- Phase 2 per-job body: the extractions inside the per-job `try`; any
raised exception (only `extract_experience_from_detail` can raise) drops
the job. -/
def processJob (ds : Soup) (j : Stub) : Option Rec :=
  match
    (do
      let c ← extract_company_from_detail ds
      let d ← extract_description_from_detail ds
      let sk ← extract_skills_from_detail ds
      let ex ← extract_experience_from_detail ds
      let sal ← extract_salary_from_detail ds
      let jf ← extract_label_value ds "Job Function"
      let ind ← extract_label_value ds "Industry"
      let sp ← extract_label_value ds "Specialization"
      let gc ← extract_label_value ds "Graduate Courses"
      let pgc ← extract_label_value ds "Post Graduate Courses"
      let et ← extract_label_value ds "Employment Type"
      let jt ← extract_label_value ds "Job Type"
      let g ← extract_label_value ds "Gender"
      Except.ok (mkTJRec j.title j.url c d ex sal jf ind sp gc pgc et jt g sk)
      : Except Unit Rec) with
  | Except.ok r => some r
  | Except.error _ => none

/-- Phase 2 loop: visit each stub's detail page; a failed load or a raised
extraction drops the job and the loop continues. -/
def tjDetails (env : TJEnv) : List Stub → List Rec × List String
  | [] => ([], [])
  | j :: rest =>
    match env.detail j.url with
    | Except.error _ =>
      let pr := tjDetails env rest
      (pr.1, j.url :: pr.2)
    | Except.ok ds =>
      let pr := tjDetails env rest
      match processJob ds j with
      | none => (pr.1, j.url :: pr.2)
      | some r => (r :: pr.1, j.url :: pr.2)

/-- `scrape_all_jobs`: load page 1, short-circuit on the no-results signal,
detect and cap the page count (truthiness test on `max_pages`), walk the
pages, then scrape details; a whole-crawl exception (the initial load)
yields `[]`; the driver is quit on every path (`finally`). -/
def scrape_all_jobs (env : TJEnv) (max_pages : Option Nat) : TJRun :=
  match env.listing 1 with
  | Except.error _ => ⟨[], [1], [], 1⟩
  | Except.ok soup1 =>
    if check_for_no_results soup1 then ⟨[], [1], [], 1⟩
    else
      let detected := get_total_pages soup1
      let total :=
        match max_pages with
        | some k => if k ≠ 0 ∧ k < detected then k else detected
        | none => detected
      let pr := tjWalk env (List.range' 1 total)
      if pr.1.isEmpty then ⟨[], 1 :: pr.2, [], 1⟩
      else
        let dr := tjDetails env pr.1
        ⟨dr.1, 1 :: pr.2, dr.2, 1⟩

/-! ## Talent.com scraper (`src/scraper/Talent_scraper.py`) -/

/-- The browsed Talent.com site: the single requested results page and the
detail pages, each possibly raising. -/
structure TalEnv where
  listing : Except Unit Soup
  detail : String → Except Unit Soup

/-- The observable outcome of one `scrape_talent_com` call. -/
structure TalRun where
  result : List Rec
  detailVisits : List String
  quits : Nat
deriving DecidableEq, Repr

/-- The Talent.com record dict literal: same keys as TimesJobs, with the
source-specific fields left empty. -/
def mkTalRec (title company url desc : String) : Rec :=
  [("source", "Talent.com"), ("title", title), ("company", company), ("url", url),
   ("description", desc), ("experience", ""), ("salary", ""),
   ("job_function", ""), ("industry", ""), ("specialization", ""),
   ("graduate_courses", ""), ("post_graduate_courses", ""),
   ("employment_type", ""), ("job_type", ""), ("gender", ""), ("skills", "")]

/-- Job cards: `div.gXOxBJ`, falling back to `div.link-job-wrap`. -/
def talentCards (soup : Soup) : List Node :=
  let cs := (((docItems soup).filter
      (fun it => hasName it.node "div" && classEq it.node "gXOxBJ")).map (fun it => it.node))
  if cs.isEmpty then
    (((docItems soup).filter
        (fun it => hasName it.node "div" && classEq it.node "link-job-wrap")).map
      (fun it => it.node))
  else cs

/-- Card title: `h2.card__job-title`, else `div.card__job-title`, else any
`h2`, else the `"N/A"` placeholder (`tag.text.strip()`). -/
def talentTitle (card : Node) : String :=
  match findFirstIn card
      (fun it => hasName it.node "h2" && classEq it.node "card__job-title") with
  | some t => pyStrip (getTextSep "" false t)
  | none =>
    match findFirstIn card
        (fun it => hasName it.node "div" && classEq it.node "card__job-title") with
    | some t => pyStrip (getTextSep "" false t)
    | none =>
      match findFirstIn card (fun it => hasName it.node "h2") with
      | some t => pyStrip (getTextSep "" false t)
      | none => "N/A"

/-- One card's stub: requires an `a[href]` link; relative links get the base
prepended; the (possibly placeholder) title is kept either way. -/
def talentStub (base : String) (card : Node) : Option Stub :=
  match findFirstIn card
      (fun it => hasName it.node "a" && (attrOf it.node "href").isSome) with
  | none => none
  | some l =>
    let href := (attrOf l "href").getD ""
    let full := if pyStartsWith href "/" then base ++ href else href
    some ⟨talentTitle card, full⟩

/-- Phase 1 of `scrape_talent_com`: collect `jobs_to_visit` from the cards. -/
def talentCollectStubs (soup : Soup) : List Stub :=
  (talentCards soup).filterMap (talentStub "https://in.talent.com")

/-- First `div` having a class containing `sc-fcd630a4-10`. -/
def scDiv (soup : Soup) : Option Node :=
  ((((docItems soup).filter
      (fun it => hasName it.node "div" && classHasSub it.node "sc-fcd630a4-10")).head?).map
    (fun it => it.node))

/-- `b` elements whose text contains `job description`. -/
def bCandidates (soup : Soup) : List SNode :=
  (docItems soup).filter
    (fun it => hasName it.node "b" &&
      strHas (lowerStr (getTextSep "" true it.node)) "job description")

/-- The container-climb around a matched `b`: up to four steps, each taken
only while the current container's parent is a `div`. -/
def containerOf (it : SNode) : Node :=
  let steps := min 4 ((it.ancestors.takeWhile (fun a => hasName a "div")).length)
  match (it.ancestors.take steps).getLast? with
  | some n => n
  | none => it.node

/-- The `b`-fallback loop: first climbed container with long-enough text. -/
def bLoop : List SNode → Option String
  | [] => none
  | it :: r =>
    let t := getTextSep " " true (containerOf it)
    if longEnough t then some t else bLoop r

/-- `div#job-description`, else `div.job-description`. -/
def jdContainer (soup : Soup) : Option Node :=
  match (((docItems soup).filter
      (fun it => hasName it.node "div" &&
        attrOf it.node "id" == some "job-description")).head?).map (fun it => it.node) with
  | some n => some n
  | none =>
    (((docItems soup).filter
        (fun it => hasName it.node "div" && classEq it.node "job-description")).head?).map
      (fun it => it.node)

/-- Fallbacks of `extract_talent_description` after the styled-class div. -/
def talDescFallback (soup : Soup) : String :=
  match bLoop (bCandidates soup) with
  | some t => t
  | none =>
    match jdContainer soup with
    | some c =>
      let t := getTextSep " " true c
      if t ≠ "" then t else "Description not found."
    | none => "Description not found."

/-- `extract_talent_description`. -/
def extract_talent_description (soup : Soup) : String :=
  match scDiv soup with
  | some d =>
    let t := getTextSep " " true d
    if longEnough t then t else talDescFallback soup
  | none => talDescFallback soup

/-- Detail-page company: `div.job-header__company`, else `span.hwHBRV`,
else the `"N/A"` placeholder. -/
def talentCompany (soup : Soup) : String :=
  match (((docItems soup).filter
      (fun it => hasName it.node "div" && classEq it.node "job-header__company")).head?).map
      (fun it => it.node) with
  | some t => pyStrip (getTextSep "" false t)
  | none =>
    match (((docItems soup).filter
        (fun it => hasName it.node "span" && classEq it.node "hwHBRV")).head?).map
        (fun it => it.node) with
    | some t => pyStrip (getTextSep "" false t)
    | none => "N/A"

/-- Phase 2 of `scrape_talent_com`: visit each stub; a failed load drops
the job and the loop continues. -/
def talDetails (env : TalEnv) : List Stub → List Rec × List String
  | [] => ([], [])
  | j :: rest =>
    match env.detail j.url with
    | Except.error _ =>
      let pr := talDetails env rest
      (pr.1, j.url :: pr.2)
    | Except.ok ds =>
      let pr := talDetails env rest
      (mkTalRec j.title (talentCompany ds) j.url (extract_talent_description ds) :: pr.1,
       j.url :: pr.2)

/-- `scrape_talent_com`: one results page, then the detail pass; a
whole-crawl exception yields `[]`; the driver is quit on every path. -/
def scrape_talent_com (env : TalEnv) : TalRun :=
  match env.listing with
  | Except.error _ => ⟨[], [], 1⟩
  | Except.ok soup =>
    let stubs := talentCollectStubs soup
    let dr := talDetails env stubs
    ⟨dr.1, dr.2, 1⟩

/-! ## Text-file parser (`parse_jobs_file` in `src/main.py`) -/

/-- The fresh record created on each `Job #` line: all schema keys set to
the empty string, plus the caller-supplied source tag. -/
def initRec (src : String) : Rec :=
  [("source", src), ("title", ""), ("company", ""), ("experience", ""),
   ("salary", ""), ("job_function", ""), ("industry", ""), ("specialization", ""),
   ("graduate_courses", ""), ("post_graduate_courses", ""), ("employment_type", ""),
   ("job_type", ""), ("gender", ""), ("url", ""), ("description", ""), ("skills", "")]

/-- Python `current[key] = value` on a dict whose key already exists:
in-place update, insertion order kept. -/
def setKey (r : Rec) (k v : String) : Rec :=
  r.map (fun p => if p.1 == k then (p.1, v) else p)

/-- `line.split(label, 1)[1].strip()` when the line starts with the label. -/
def fieldVal (lab line : String) : String :=
  pyStrip (dropStr line lab.length)

/-- The `elif` chain applying one field line to the current record. -/
def applyField (line : String) (c : Rec) : Rec :=
  if pyStartsWith line "Title:" then setKey c "title" (fieldVal "Title:" line)
  else if pyStartsWith line "Company:" then setKey c "company" (fieldVal "Company:" line)
  else if pyStartsWith line "Experience:" then setKey c "experience" (fieldVal "Experience:" line)
  else if pyStartsWith line "Salary:" then setKey c "salary" (fieldVal "Salary:" line)
  else if pyStartsWith line "Job Function:" then
    setKey c "job_function" (fieldVal "Job Function:" line)
  else if pyStartsWith line "Industry:" then setKey c "industry" (fieldVal "Industry:" line)
  else if pyStartsWith line "Specialization:" then
    setKey c "specialization" (fieldVal "Specialization:" line)
  else if pyStartsWith line "Graduate Courses:" then
    setKey c "graduate_courses" (fieldVal "Graduate Courses:" line)
  else if pyStartsWith line "Post Graduate Courses:" then
    setKey c "post_graduate_courses" (fieldVal "Post Graduate Courses:" line)
  else if pyStartsWith line "Employment Type:" then
    setKey c "employment_type" (fieldVal "Employment Type:" line)
  else if pyStartsWith line "Job Type:" then setKey c "job_type" (fieldVal "Job Type:" line)
  else if pyStartsWith line "Gender:" then setKey c "gender" (fieldVal "Gender:" line)
  else if pyStartsWith line "URL:" then setKey c "url" (fieldVal "URL:" line)
  else if pyStartsWith line "Description:" then
    setKey c "description" (fieldVal "Description:" line)
  else if pyStartsWith line "Skills:" then setKey c "skills" (fieldVal "Skills:" line)
  else c

/-- The line loop of `parse_jobs_file`, carrying the optional record in
progress; the record still open at end of file is emitted. -/
def parseLines (src : String) : List String → Option Rec → List Rec
  | [], cur =>
    match cur with
    | some c => [c]
    | none => []
  | raw :: rest, cur =>
    if pyStartsWith (rstripNl raw) "Job #" then
      match cur with
      | some c => c :: parseLines src rest (some (initRec src))
      | none => parseLines src rest (some (initRec src))
    else
      match cur with
      | none => parseLines src rest none
      | some c => parseLines src rest (some (applyField (rstripNl raw) c))

/-- `parse_jobs_file`, with the file given as its list of raw lines. -/
def parse_jobs_file (src : String) (lines : List String) : List Rec :=
  parseLines src lines none

/-! ## Shared record schema and helper lemmas -/

/-- The JobRecord schema keys, in the order of both scrapers' dict literals. -/
def schemaKeys : List String :=
  ["source", "title", "company", "url", "description", "experience", "salary",
   "job_function", "industry", "specialization", "graduate_courses",
   "post_graduate_courses", "employment_type", "job_type", "gender", "skills"]

theorem keysOf_mkTJRec (t u c d e sal jf i sp gc pgc et jt g sk : String) :
    keysOf (mkTJRec t u c d e sal jf i sp gc pgc et jt g sk) = schemaKeys := rfl

theorem keysOf_mkTalRec (t c u d : String) :
    keysOf (mkTalRec t c u d) = schemaKeys := rfl

theorem processJob_keys (ds : Soup) (j : Stub) (r : Rec)
    (h : processJob ds j = some r) : keysOf r = schemaKeys := by
  unfold processJob at h
  cases hex : extract_experience_from_detail ds with
  | error e =>
    simp [extract_company_from_detail, extract_description_from_detail,
      extract_skills_from_detail, extract_salary_from_detail, extract_label_value,
      hex, Bind.bind, Except.bind] at h
  | ok ex =>
    simp [extract_company_from_detail, extract_description_from_detail,
      extract_skills_from_detail, extract_salary_from_detail, extract_label_value,
      hex, Bind.bind, Except.bind, Pure.pure, Except.pure] at h
    subst h
    rfl

theorem tjDetails_keys (env : TJEnv) :
    ∀ (stubs : List Stub) (r : Rec), r ∈ (tjDetails env stubs).1 → keysOf r = schemaKeys := by
  intro stubs
  induction stubs with
  | nil => intro r h; simp [tjDetails] at h
  | cons j rest ih =>
    intro r h
    unfold tjDetails at h
    cases hd : env.detail j.url with
    | error e =>
      simp only [hd] at h
      exact ih r h
    | ok ds =>
      simp only [hd] at h
      cases hp : processJob ds j with
      | none => simp only [hp] at h; exact ih r h
      | some r0 =>
        simp only [hp] at h
        rcases List.mem_cons.1 h with h1 | h1
        · subst h1; exact processJob_keys ds j r hp
        · exact ih r h1

theorem talDetails_keys (env : TalEnv) :
    ∀ (stubs : List Stub) (r : Rec), r ∈ (talDetails env stubs).1 → keysOf r = schemaKeys := by
  intro stubs
  induction stubs with
  | nil => intro r h; simp [talDetails] at h
  | cons j rest ih =>
    intro r h
    unfold talDetails at h
    cases hd : env.detail j.url with
    | error e =>
      simp only [hd] at h
      exact ih r h
    | ok ds =>
      simp only [hd] at h
      rcases List.mem_cons.1 h with h1 | h1
      · subst h1; exact keysOf_mkTalRec _ _ _ _
      · exact ih r h1

theorem tjWalk_visits_mem (env : TJEnv) :
    ∀ (pages : List Nat) (x : Nat), x ∈ (tjWalk env pages).2 → x ∈ pages := by
  intro pages
  induction pages with
  | nil => intro x h; simp [tjWalk] at h
  | cons p rest ih =>
    intro x h
    unfold tjWalk at h
    cases hl : env.listing p with
    | error e =>
      simp only [hl] at h
      rcases List.mem_cons.1 h with h1 | h1
      · simp [h1]
      · exact List.mem_cons_of_mem _ (ih x h1)
    | ok soup =>
      simp only [hl] at h
      by_cases hc : check_for_no_results soup
      · rw [if_pos hc] at h
        rcases List.mem_cons.1 h with h1 | h1
        · simp [h1]
        · simp at h1
      · rw [if_neg hc] at h
        rcases List.mem_cons.1 h with h1 | h1
        · simp [h1]
        · exact List.mem_cons_of_mem _ (ih x h1)

theorem tjWalk_visits_all (env : TJEnv) :
    ∀ pages : List Nat,
      (∀ p ∈ pages, ∃ sp, env.listing p = Except.ok sp ∧ check_for_no_results sp = false) →
      (tjWalk env pages).2 = pages := by
  intro pages
  induction pages with
  | nil => intro _; rfl
  | cons p rest ih =>
    intro h
    obtain ⟨sp, hl, hc⟩ := h p (List.mem_cons_self p rest)
    unfold tjWalk
    simp only [hl, hc, Bool.false_eq_true, if_false]
    rw [ih (fun q hq => h q (List.mem_cons_of_mem _ hq))]

/-- The page-count fold only ever increases its accumulator. -/
theorem pagesFold_le (ts : List String) :
    ∀ a : Nat,
      a ≤ ts.foldl
        (fun m t =>
          if pyIsDigit t then
            if digitsVal t > 1 then max m (digitsVal t) else m
          else m) a := by
  induction ts with
  | nil => intro a; simp
  | cons t r ih =>
    intro a
    rw [List.foldl_cons]
    refine le_trans ?_ (ih _)
    by_cases h1 : pyIsDigit t
    · by_cases h2 : digitsVal t > 1 <;> simp [h1, h2]
    · simp [h1]

theorem get_total_pages_pos (soup : Soup) : 1 ≤ get_total_pages soup :=
  pagesFold_le (buttonTexts soup) 1

/-! ## Concrete documents and environments used as test inputs -/

/-- A TimesJobs listing page: one job card and pagination buttons 1 and 2. -/
def samplePage : Soup :=
  [Node.elem "div" []
     [Node.elem "h2" [] [Node.text "Dev"],
      Node.elem "a" [("href", "/job-detail/x")] [Node.text "link"]],
   Node.elem "button" [] [Node.text "1"],
   Node.elem "button" [] [Node.text "2"]]

/-- A TimesJobs detail page with the two fixed-position spans present. -/
def twoSpanDetail : Soup :=
  [Node.elem "span" [("class", "mr-2 inline flex items-center")] [Node.text "a"],
   Node.elem "span" [("class", "mr-2 inline flex items-center")] [Node.text "1-3 Years"]]

/-- A TimesJobs detail page in which only one fixed-position span exists. -/
def noSpanDetail : Soup :=
  [Node.elem "span" [("class", "mr-2 inline flex items-center")]
     [Node.text "Posted 3 days ago"]]

/-- A detail page with no description container, only a labeled heading
followed by sibling paragraphs. -/
def headingDetail : Soup :=
  [Node.elem "h3" [] [Node.text "Job Description"],
   Node.elem "p" [] [Node.text "We need a dev"],
   Node.elem "p" [] [Node.text "with Python"]]

/-- The heading of `headingDetail` with its traversal context. -/
def headingDetailIt : SNode :=
  ⟨Node.elem "h3" [] [Node.text "Job Description"], [],
   [Node.elem "p" [] [Node.text "We need a dev"],
    Node.elem "p" [] [Node.text "with Python"]]⟩

/-- A TimesJobs site whose pages 1 and 2 both show the same job link. -/
def dupEnv : TJEnv :=
  { listing := fun p =>
      if p = 1 then Except.ok samplePage
      else if p = 2 then Except.ok samplePage
      else Except.error ()
    detail := fun _ => Except.ok twoSpanDetail }

/-- A TimesJobs site whose first page carries the no-results phrase. -/
def noResEnvTJ : TJEnv :=
  { listing := fun _ => Except.ok [Node.text "no jobs matching"]
    detail := fun _ => Except.error () }

/-- A TimesJobs site where every browser operation raises. -/
def errEnvTJ : TJEnv :=
  { listing := fun _ => Except.error ()
    detail := fun _ => Except.error () }

/-- A first page advertising 3 total pages via pagination buttons. -/
def capFirstPage : Soup :=
  [Node.elem "button" [] [Node.text "1"],
   Node.elem "button" [] [Node.text "2"],
   Node.elem "button" [] [Node.text "3"],
   Node.elem "div" []
     [Node.elem "h2" [] [Node.text "Dev"],
      Node.elem "a" [("href", "/job-detail/x")] [Node.text "l"]]]

/-- A TimesJobs site advertising 3 pages whose page 2 shows the no-results
phrase. -/
def capEnv : TJEnv :=
  { listing := fun p =>
      if p = 1 then Except.ok capFirstPage
      else if p = 2 then Except.ok [Node.text "no jobs matching"]
      else if p = 3 then Except.ok capFirstPage
      else Except.error ()
    detail := fun _ => Except.error () }

/-- A Talent.com results page whose text contains a no-results phrase and
which still carries one job card. -/
def talNoResPage : Soup :=
  [Node.text "No results found for your query",
   Node.elem "div" [("class", "gXOxBJ")]
     [Node.elem "a" [("href", "/view?id=1")] [Node.text "job"],
      Node.elem "h2" [] [Node.text "TDev"]]]

/-- The Talent.com site serving `talNoResPage`. -/
def talNoResEnv : TalEnv :=
  { listing := Except.ok talNoResPage
    detail := fun _ => Except.ok [] }

/-- A Talent.com results page with a job card that has a link but no
resolvable title. -/
def noTitleCardPage : Soup :=
  [Node.elem "div" [("class", "gXOxBJ")]
     [Node.elem "a" [("href", "/view?id=9")] [Node.text "go"]]]

/-- A Talent.com site where every browser operation raises. -/
def errEnvTal : TalEnv :=
  { listing := Except.error ()
    detail := fun _ => Except.error () }

/-! ## Claims -/

/-- C1 counterexample: `scrape_talent_com` performs no no-results scan: on a
first page whose rendered text contains the known phrase `no results found`
but which still carries a job card, it returns a non-empty list and visits a
detail page. -/
theorem C1_counterexample :
    strHas (lowerStr (soupTextRaw talNoResPage)) "no results found" = true ∧
    (scrape_talent_com talNoResEnv).result ≠ [] ∧
    (scrape_talent_com talNoResEnv).detailVisits ≠ [] := by
  refine ⟨by decide, by decide, by decide⟩

/-- C1 (amended): for the TimesJobs crawler `scrape_all_jobs`, if the first
page's text content contains a known no-results phrase, the call returns the
empty list immediately and never visits a detail page; `scrape_talent_com`
has no such short-circuit. -/
theorem C1_amended (env : TJEnv) (mp : Option Nat) (s : Soup)
    (h : env.listing 1 = Except.ok s) (hc : check_for_no_results s = true) :
    (scrape_all_jobs env mp).result = [] ∧
    (scrape_all_jobs env mp).detailVisits = [] := by
  unfold scrape_all_jobs
  simp [h, hc]

/-- C1 witness: the amended theorem applied to a concrete no-results site. -/
theorem C1_witness :
    (scrape_all_jobs noResEnvTJ none).result = [] ∧
    (scrape_all_jobs noResEnvTJ none).detailVisits = [] :=
  C1_amended noResEnvTJ none [Node.text "no jobs matching"] rfl (by decide)

/-- C3 counterexample: extracting experience from a detail page that lacks
the second fixed-position span raises (the exception escapes the extractor)
instead of yielding a sentinel. -/
theorem C3_counterexample :
    extract_experience_from_detail noSpanDetail = Except.error () := rfl

/-- C3 (amended): company, description, skills, salary and the label-keyed
extractors are total (they return extracted content or a sentinel, never an
exception); the experience extractor returns normally exactly when at least
two fixed-position spans exist, and raises otherwise. -/
theorem C3_amended (soup : Soup) :
    (∃ s, extract_company_from_detail soup = Except.ok s) ∧
    (∃ s, extract_description_from_detail soup = Except.ok s) ∧
    (∃ s, extract_skills_from_detail soup = Except.ok s) ∧
    (∃ s, extract_salary_from_detail soup = Except.ok s) ∧
    (∀ lab : String, ∃ s, extract_label_value soup lab = Except.ok s) ∧
    ((∃ s, extract_experience_from_detail soup = Except.ok s) ↔
      2 ≤ (mrSpans soup).length) := by
  refine ⟨⟨_, rfl⟩, ⟨_, rfl⟩, ⟨_, rfl⟩, ⟨_, rfl⟩, fun lab => ⟨_, rfl⟩, ?_⟩
  constructor
  · rintro ⟨s, hs⟩
    unfold extract_experience_from_detail at hs
    cases hg : (mrSpans soup).get? 1 with
    | none => rw [hg] at hs; exact absurd hs (by simp)
    | some sp =>
      have h1 : 1 < (mrSpans soup).length := List.get?_eq_some.1 hg |>.1
      omega
  · intro hlen
    have h1 : 1 < (mrSpans soup).length := hlen
    unfold extract_experience_from_detail
    rw [List.get?_eq_get h1]
    exact ⟨_, rfl⟩

/-- All stubs emitted by the per-page link loop carry a real title. -/
theorem jobsLoop_titles (base : String) :
    ∀ (items : List SNode) (seen : List String) (st : Stub),
      st ∈ jobsLoop base seen items → st.title ≠ "" ∧ st.title ≠ "N/A" := by
  intro items
  induction items with
  | nil => intro seen st h; simp [jobsLoop] at h
  | cons it rest ih =>
    intro seen st h
    unfold jobsLoop at h
    split at h
    · exact ih seen st h
    · split at h
      · exact ih seen st h
      · split at h
        · rename_i htitle
          rcases List.mem_cons.1 h with h1 | h1
          · subst h1
            simpa using htitle
          · exact ih _ st h1
        · exact ih _ st h

/-- C5 counterexample: the Talent.com paginator emits a JobStub with the
placeholder title `N/A` for a card that carries a link but no resolvable
title. -/
theorem C5_counterexample :
    talentCollectStubs noTitleCardPage =
      [⟨"N/A", "https://in.talent.com/view?id=9"⟩] := by decide

/-- C5 (amended): for the TimesJobs paginator, every emitted JobStub carries
a real non-placeholder title (unresolvable titles are dropped);
`scrape_talent_com` instead emits such stubs with the `N/A` placeholder. -/
theorem C5_amended (soup : Soup) (base : String) (st : Stub)
    (h : st ∈ extract_jobs_from_page soup base) :
    st.title ≠ "" ∧ st.title ≠ "N/A" :=
  jobsLoop_titles base (anchorsOf soup) [] st h

/-- C5 witness: the amended theorem applied to the sample listing page. -/
theorem C5_witness :
    (Stub.mk "Dev" "https://www.timesjobs.com/job-detail/x").title ≠ "" ∧
    (Stub.mk "Dev" "https://www.timesjobs.com/job-detail/x").title ≠ "N/A" :=
  C5_amended samplePage "https://www.timesjobs.com" _ (by decide)

/-- C6: on every execution path of either crawler the browser session is
released exactly once, and a whole-crawl exception (the initial page load
raising) yields the empty list with no detail page visited. -/
theorem C6_release_and_empty (env : TJEnv) (mp : Option Nat) (tenv : TalEnv) :
    (scrape_all_jobs env mp).quits = 1 ∧
    (scrape_talent_com tenv).quits = 1 ∧
    (env.listing 1 = Except.error () →
      (scrape_all_jobs env mp).result = [] ∧ (scrape_all_jobs env mp).detailVisits = []) ∧
    (tenv.listing = Except.error () →
      (scrape_talent_com tenv).result = [] ∧ (scrape_talent_com tenv).detailVisits = []) := by
  refine ⟨?_, ?_, ?_, ?_⟩
  · unfold scrape_all_jobs
    cases h : env.listing 1 with
    | error e => rfl
    | ok s =>
      by_cases hc : check_for_no_results s
      · simp [hc]
      · simp only [hc, Bool.false_eq_true, if_false]
        split <;> rfl
  · unfold scrape_talent_com
    cases h : tenv.listing <;> rfl
  · intro herr
    unfold scrape_all_jobs
    rw [herr]
    exact ⟨rfl, rfl⟩
  · intro herr
    unfold scrape_talent_com
    rw [herr]
    exact ⟨rfl, rfl⟩

/-- C6 witness: the theorem applied to concrete sites, including one whose
driver raises on the first load. -/
theorem C6_witness :
    (scrape_all_jobs errEnvTJ none).quits = 1 ∧
    (scrape_talent_com errEnvTal).quits = 1 ∧
    (scrape_all_jobs errEnvTJ none).result = [] ∧
    (scrape_talent_com errEnvTal).result = [] := by
  obtain ⟨h1, h2, h3, h4⟩ := C6_release_and_empty errEnvTJ none errEnvTal
  exact ⟨h1, h2, (h3 rfl).1, (h4 rfl).1⟩

/-- C7: every record returned by either crawler carries exactly the full
JobRecord key schema, in order — never a partially keyed record. -/
theorem C7_full_schema :
    (∀ (env : TJEnv) (mp : Option Nat) (r : Rec),
      r ∈ (scrape_all_jobs env mp).result → keysOf r = schemaKeys) ∧
    (∀ (tenv : TalEnv) (r : Rec),
      r ∈ (scrape_talent_com tenv).result → keysOf r = schemaKeys) := by
  constructor
  · intro env mp r hr
    unfold scrape_all_jobs at hr
    cases h : env.listing 1 with
    | error e => simp only [h] at hr; simp at hr
    | ok s =>
      simp only [h] at hr
      by_cases hc : check_for_no_results s
      · simp [hc] at hr
      · simp only [hc, Bool.false_eq_true, if_false] at hr
        split at hr
        · simp at hr
        · exact tjDetails_keys env _ r hr
  · intro tenv r hr
    unfold scrape_talent_com at hr
    cases h : tenv.listing with
    | error e => simp only [h] at hr; simp at hr
    | ok s =>
      simp only [h] at hr
      exact talDetails_keys tenv _ r hr

/-- C7 witness: the theorem applied to records from concrete runs of both
crawlers. -/
theorem C7_witness :
    keysOf (mkTJRec "Dev" "https://www.timesjobs.com/job-detail/x" "N/A" "N/A"
      "1-3 Years" "N/A" "N/A" "N/A" "N/A" "N/A" "N/A" "N/A" "N/A" "N/A" "N/A") =
      schemaKeys ∧
    keysOf (mkTalRec "TDev" "N/A" "https://in.talent.com/view?id=1"
      "Description not found.") = schemaKeys :=
  ⟨C7_full_schema.1 dupEnv none _ (by decide),
   C7_full_schema.2 talNoResEnv _ (by decide)⟩

/-- C9: `max_pages = 0` is falsy in the Python truthiness test, so it is
treated as "no cap": the run is identical to an uncapped run, the crawl
still visits pages (never zero), and when every detected page loads without
the no-results signal, all detected listing pages are visited. -/
theorem C9_zero_cap (env : TJEnv) :
    scrape_all_jobs env (some 0) = scrape_all_jobs env none ∧
    (scrape_all_jobs env (some 0)).listingVisits ≠ [] ∧
    (∀ s : Soup, env.listing 1 = Except.ok s → check_for_no_results s = false →
      (∀ p ∈ List.range' 1 (get_total_pages s),
        ∃ sp, env.listing p = Except.ok sp ∧ check_for_no_results sp = false) →
      (scrape_all_jobs env (some 0)).listingVisits =
        1 :: List.range' 1 (get_total_pages s)) := by
  refine ⟨?_, ?_, ?_⟩
  · unfold scrape_all_jobs
    cases h : env.listing 1 with
    | error e => rfl
    | ok s => simp
  · unfold scrape_all_jobs
    cases h : env.listing 1 with
    | error e => simp
    | ok s =>
      by_cases hc : check_for_no_results s
      · simp [hc]
      · simp only [hc, Bool.false_eq_true, if_false]
        split <;> split <;> simp
  · intro s h hc hall
    unfold scrape_all_jobs
    simp only [h, hc, Bool.false_eq_true, if_false]
    have hcap : (if (0 : Nat) ≠ 0 ∧ 0 < get_total_pages s then 0
        else get_total_pages s) = get_total_pages s := by simp
    rw [hcap]
    have hw := tjWalk_visits_all env (List.range' 1 (get_total_pages s)) hall
    split <;> simp [hw]

/-- C4 counterexample: a site advertising 3 pages whose page 2 carries the
no-results phrase: with cap 5 ≥ detected 3, the walk visits only the 2
distinct pages 1 and 2, not exactly the detected 3. -/
theorem C4_counterexample :
    get_total_pages capFirstPage = 3 ∧
    (scrape_all_jobs capEnv (some 5)).listingVisits = [1, 1, 2] ∧
    ((scrape_all_jobs capEnv (some 5)).listingVisits).toFinset.card = 2 := by
  refine ⟨by decide, by decide, ?_⟩
  have h : (scrape_all_jobs capEnv (some 5)).listingVisits = [1, 1, 2] := by decide
  rw [h]
  decide

/-- C4 (amended): with a positive page cap `k`, at most `k` distinct listing
pages are visited; when `k` is at least the detected total and no walked
page triggers the no-results signal, exactly the detected total of pages is
visited; and a first page with no numeric pagination button greater than 1
yields a detected total of 1. -/
theorem C4_amended :
    (∀ soup : Soup,
      (∀ t ∈ buttonTexts soup, pyIsDigit t = true → digitsVal t ≤ 1) →
      get_total_pages soup = 1) ∧
    (∀ (env : TJEnv) (k : Nat), 1 ≤ k →
      ((scrape_all_jobs env (some k)).listingVisits).toFinset.card ≤ k) ∧
    (∀ (env : TJEnv) (k : Nat) (s : Soup),
      env.listing 1 = Except.ok s → check_for_no_results s = false →
      get_total_pages s ≤ k →
      (∀ p ∈ List.range' 1 (get_total_pages s),
        ∃ sp, env.listing p = Except.ok sp ∧ check_for_no_results sp = false) →
      ((scrape_all_jobs env (some k)).listingVisits).toFinset.card =
        get_total_pages s) := by
  refine ⟨?_, ?_, ?_⟩
  · intro soup hbt
    unfold get_total_pages
    have : ∀ ts : List String,
        (∀ t ∈ ts, pyIsDigit t = true → digitsVal t ≤ 1) →
        ts.foldl
          (fun m t =>
            if pyIsDigit t then
              if digitsVal t > 1 then max m (digitsVal t) else m
            else m) 1 = 1 := by
      intro ts
      induction ts with
      | nil => intro _; rfl
      | cons t r ih =>
        intro hall
        rw [List.foldl_cons]
        have ht : (if pyIsDigit t then
            if digitsVal t > 1 then max 1 (digitsVal t) else 1
          else 1) = 1 := by
          by_cases h1 : pyIsDigit t
          · have := hall t (List.mem_cons_self t r) h1
            rw [if_pos h1, if_neg (by omega)]
          · rw [if_neg h1]
        rw [ht]
        exact ih (fun t2 h2 => hall t2 (List.mem_cons_of_mem _ h2))
    exact this (buttonTexts soup) hbt
  · intro env k hk
    unfold scrape_all_jobs
    cases h : env.listing 1 with
    | error e => simpa using hk
    | ok s =>
      by_cases hc : check_for_no_results s
      · simp only [hc, if_true]
        simpa using hk
      · simp only [hc, Bool.false_eq_true, if_false]
        have hTpos := get_total_pages_pos s
        set T := get_total_pages s with hT
        set eff := (if k ≠ 0 ∧ k < T then k else T) with heff
        have heffk : eff ≤ k := by
          rw [heff]
          split
          · exact le_refl k
          · rename_i hcond
            push_neg at hcond
            exact hcond (by omega)
        have heff1 : 1 ≤ eff := by
          rw [heff]
          split
          · exact hk
          · exact hTpos
        have hsub : ∀ x ∈ 1 :: (tjWalk env (List.range' 1 eff)).2,
            x ∈ List.range' 1 eff := by
          intro x hx
          rcases List.mem_cons.1 hx with h1 | h1
          · subst h1
            exact List.mem_range'_1.2 ⟨le_refl 1, by omega⟩
          · exact tjWalk_visits_mem env _ x h1
        have hcard : (1 :: (tjWalk env (List.range' 1 eff)).2).toFinset.card ≤ k := by
          have hss : (1 :: (tjWalk env (List.range' 1 eff)).2).toFinset ⊆
              (List.range' 1 eff).toFinset := by
            intro x hx
            rw [List.mem_toFinset] at hx ⊢
            exact hsub x hx
          calc (1 :: (tjWalk env (List.range' 1 eff)).2).toFinset.card
              ≤ (List.range' 1 eff).toFinset.card := Finset.card_le_card hss
            _ ≤ (List.range' 1 eff).length := List.toFinset_card_le _
            _ = eff := List.length_range' 1 1 eff
            _ ≤ k := heffk
        split <;> exact hcard
  · intro env k s h hc hk hall
    unfold scrape_all_jobs
    simp only [h, hc, Bool.false_eq_true, if_false]
    have hTpos := get_total_pages_pos s
    have hcap : (if k ≠ 0 ∧ k < get_total_pages s then k else get_total_pages s) =
        get_total_pages s := by
      split
      · rename_i hcond; omega
      · rfl
    rw [hcap]
    have hw := tjWalk_visits_all env (List.range' 1 (get_total_pages s)) hall
    have hfin : (1 :: (tjWalk env (List.range' 1 (get_total_pages s))).2).toFinset.card =
        get_total_pages s := by
      rw [hw, List.toFinset_cons]
      have h1T : (1 : Nat) ∈ List.range' 1 (get_total_pages s) :=
        List.mem_range'_1.2 ⟨le_refl 1, by omega⟩
      rw [Finset.insert_eq_self.2 (List.mem_toFinset.2 h1T)]
      rw [List.toFinset_card_of_nodup (List.nodup_range' 1 (get_total_pages s))]
      exact List.length_range' 1 1 (get_total_pages s)
    split <;> exact hfin

/-- C4 witness: the amended theorem applied to an empty first page, to the
capped site, and to a two-page site with a cap of 9. -/
theorem C4_witness :
    get_total_pages [] = 1 ∧
    ((scrape_all_jobs capEnv (some 5)).listingVisits).toFinset.card ≤ 5 ∧
    ((scrape_all_jobs dupEnv (some 9)).listingVisits).toFinset.card =
      get_total_pages samplePage := by
  refine ⟨C4_amended.1 [] (by decide), C4_amended.2.1 capEnv 5 (by decide), ?_⟩
  refine C4_amended.2.2 dupEnv 9 samplePage rfl (by decide) (by decide) ?_
  intro p hp
  have h2 : get_total_pages samplePage = 2 := by decide
  rw [h2, show List.range' 1 2 = [1, 2] from rfl] at hp
  rcases List.mem_cons.1 hp with h | h
  · subst h; exact ⟨samplePage, rfl, by decide⟩
  · rcases List.mem_cons.1 h with h | h
    · subst h; exact ⟨samplePage, rfl, by decide⟩
    · simp at h

/-- C9 witness: on a concrete two-page site, a `max_pages = 0` run equals
the uncapped run and visits both detected pages. -/
theorem C9_witness :
    scrape_all_jobs dupEnv (some 0) = scrape_all_jobs dupEnv none ∧
    (scrape_all_jobs dupEnv (some 0)).listingVisits = 1 :: List.range' 1 2 := by
  obtain ⟨h1, _, h3⟩ := C9_zero_cap dupEnv
  refine ⟨h1, ?_⟩
  have h2 : get_total_pages samplePage = 2 := by decide
  have := h3 samplePage rfl (by decide) ?_
  · rw [this, h2]
  · rw [h2]
    intro p hp
    rw [show List.range' 1 2 = [1, 2] from rfl] at hp
    rcases List.mem_cons.1 hp with h | h
    · subst h; exact ⟨samplePage, rfl, by decide⟩
    · rcases List.mem_cons.1 h with h | h
      · subst h; exact ⟨samplePage, rfl, by decide⟩
      · simp at h

/-- The seen-href set only grows as the link loop proceeds. -/
theorem seenAfter_mono :
    ∀ (items : List SNode) (seen : List String) (h : String),
      seen.contains h = true → (seenAfter seen items).contains h = true := by
  intro items
  induction items with
  | nil => intro seen h hh; exact hh
  | cons it rest ih =>
    intro seen h hh
    unfold seenAfter
    split
    · exact ih seen h hh
    · split
      · exact ih seen h hh
      · refine ih _ h ?_
        simp only [List.contains_cons, hh, Bool.or_true]

/-- A processed candidate link's href ends up in the seen set. -/
theorem seenAfter_mem :
    ∀ (pre : List SNode) (seen : List String) (l : SNode), l ∈ pre →
      strHas (hrefOf l) "/job-detail/" = true →
      (seenAfter seen pre).contains (hrefOf l) = true := by
  intro pre
  induction pre with
  | nil => intro seen l hl; simp at hl
  | cons x pre2 ih =>
    intro seen l hl hjd
    rcases List.mem_cons.1 hl with h1 | h1
    · subst h1
      unfold seenAfter
      rw [if_neg (by simp [hjd])]
      by_cases h2 : seen.contains (hrefOf l) = true
      · rw [if_pos h2]
        exact seenAfter_mono pre2 seen _ h2
      · rw [if_neg h2]
        refine seenAfter_mono pre2 _ _ ?_
        simp [List.contains_cons]
    · unfold seenAfter
      split
      · exact ih seen l h1 hjd
      · split
        · exact ih seen l h1 hjd
        · exact ih _ l h1 hjd

/-- C2 counterexample: a two-page walk in which both pages carry the same
job link produces two JobStubs for that URL, not one — deduplication does
not span pages — and both make it into the returned records. -/
theorem C2_counterexample :
    get_total_pages samplePage = 2 ∧
    (tjWalk dupEnv (List.range' 1 2)).1 =
      [⟨"Dev", "https://www.timesjobs.com/job-detail/x"⟩,
       ⟨"Dev", "https://www.timesjobs.com/job-detail/x"⟩] ∧
    (scrape_all_jobs dupEnv none).result.length = 2 := by
  exact ⟨by decide, by decide, by decide⟩

/-- C2 (amended): candidate links are deduplicated by raw href within one
listing page only — the loop drops any link whose href is already in the
seen set accumulated so far (so the first occurrence on the page wins), and
every processed job-detail href enters that set — while duplicates across
different pages of the walk are kept. -/
theorem C2_amended :
    (∀ (base : String) (seen : List String) (pre post : List SNode) (l : SNode),
      (seenAfter seen pre).contains (hrefOf l) = true →
      jobsLoop base seen (pre ++ l :: post) = jobsLoop base seen (pre ++ post)) ∧
    (∀ (pre : List SNode) (seen : List String) (l : SNode), l ∈ pre →
      strHas (hrefOf l) "/job-detail/" = true →
      (seenAfter seen pre).contains (hrefOf l) = true) := by
  constructor
  · intro base seen pre post l
    induction pre generalizing seen with
    | nil =>
      intro hs
      have hs2 : seen.contains (hrefOf l) = true := hs
      show jobsLoop base seen (l :: post) = jobsLoop base seen post
      simp only [jobsLoop]
      cases h1 : strHas (hrefOf l) "/job-detail/" with
      | false => simp only [h1, Bool.not_false, if_true]
      | true =>
        simp only [h1, Bool.not_true, Bool.false_eq_true, if_false, hs2, if_true]
    | cons x pre2 ih =>
      intro hs
      have hs2 := hs
      unfold seenAfter at hs2
      show jobsLoop base seen (x :: (pre2 ++ l :: post)) =
        jobsLoop base seen (x :: (pre2 ++ post))
      simp only [jobsLoop]
      cases h1 : strHas (hrefOf x) "/job-detail/" with
      | false =>
        simp only [h1, Bool.not_false, if_true] at hs2 ⊢
        exact ih seen hs2
      | true =>
        simp only [h1, Bool.not_true, Bool.false_eq_true, if_false] at hs2 ⊢
        cases h2 : seen.contains (hrefOf x) with
        | true =>
          simp only [h2, if_true] at hs2 ⊢
          exact ih seen hs2
        | false =>
          simp only [h2, Bool.false_eq_true, if_false] at hs2 ⊢
          cases h3 : (decide (anchorTitle x ≠ "") && decide (anchorTitle x ≠ "N/A")) with
          | true =>
            simp only [h3, if_true]
            rw [ih _ hs2]
          | false =>
            simp only [h3, Bool.false_eq_true, if_false]
            exact ih _ hs2
  · exact seenAfter_mem

/-- A link item carrying the duplicated href of the sample page. -/
def dupLink : SNode :=
  ⟨Node.elem "a" [("href", "/job-detail/x")] [Node.text "l"], [], []⟩

/-- C2 witness: the amended theorem applied to a concrete duplicated link. -/
theorem C2_witness :
    (seenAfter [] [dupLink]).contains (hrefOf dupLink) = true ∧
    jobsLoop "https://www.timesjobs.com" [] ([dupLink] ++ dupLink :: []) =
      jobsLoop "https://www.timesjobs.com" [] ([dupLink] ++ []) := by
  have h1 : (seenAfter [] [dupLink]).contains (hrefOf dupLink) = true :=
    C2_amended.2 [dupLink] [] dupLink (List.mem_cons_self _ _) (by decide)
  exact ⟨h1, C2_amended.1 "https://www.timesjobs.com" [] [dupLink] [] dupLink h1⟩

/-- C8 counterexample: a Talent.com detail page that lacks every description
container but has a `Job Description` heading followed by sibling text: the
Talent.com extractor has no heading-sibling fallback and returns its
sentinel rather than the sibling concatenation. -/
theorem C8_counterexample :
    scDiv headingDetail = none ∧
    firstLongBlockText (descBlocks headingDetail) = none ∧
    descHeading headingDetail = some headingDetailIt ∧
    sibParts headingDetailIt = ["We need a dev", "with Python"] ∧
    extract_talent_description headingDetail = "Description not found." ∧
    "Description not found." ≠ String.intercalate " " (sibParts headingDetailIt) := by
  exact ⟨rfl, rfl, rfl, by decide, by decide, by decide⟩

/-- C8 (amended): for a TimesJobs detail page lacking the primary
`rtd-content` container and any long-enough class-matched fallback block but
carrying a description heading with nonempty sibling text, the extracted
description is the space-joined concatenation of the heading's following
sibling texts; the Talent.com extractor has no heading-sibling layer and
yields its sentinel when its own three layers miss. -/
theorem C8_amended :
    (∀ (soup : Soup) (it : SNode),
      rtdDiv soup = none →
      firstLongBlockText (descBlocks soup) = none →
      descHeading soup = some it →
      sibParts it ≠ [] →
      extract_description_from_detail soup =
        Except.ok (String.intercalate " " (sibParts it))) ∧
    (∀ soup : Soup,
      scDiv soup = none → bLoop (bCandidates soup) = none → jdContainer soup = none →
      extract_talent_description soup = "Description not found.") := by
  constructor
  · intro soup it h1 h2 h3 h4
    unfold extract_description_from_detail
    rw [h1]
    unfold descAfterRtd
    rw [h2, h3]
    simp only []
    rw [if_neg (by simp [List.isEmpty_iff, h4])]
  · intro soup h1 h2 h3
    unfold extract_talent_description
    rw [h1]
    unfold talDescFallback
    rw [h2, h3]

/-- C8 witness: the amended theorem applied to the heading-only detail page
for both extractors. -/
theorem C8_witness :
    extract_description_from_detail headingDetail =
      Except.ok "We need a dev with Python" ∧
    extract_talent_description headingDetail = "Description not found." := by
  constructor
  · have h := C8_amended.1 headingDetail headingDetailIt rfl rfl rfl (by decide)
    rw [h]
    rfl
  · exact C8_amended.2 headingDetail rfl rfl rfl

/-! ## Properties of the text-file parser -/

/-- The schema keys of `parse_jobs_file` records, in its insertion order. -/
def parseKeys : List String :=
  ["source", "title", "company", "experience", "salary", "job_function",
   "industry", "specialization", "graduate_courses", "post_graduate_courses",
   "employment_type", "job_type", "gender", "url", "description", "skills"]

/-- A well-formed parser record: full schema, source tag intact. -/
def goodRec (src : String) (r : Rec) : Prop :=
  keysOf r = parseKeys ∧ List.lookup "source" r = some src

theorem keysOf_setKey (r : Rec) (k v : String) : keysOf (setKey r k v) = keysOf r := by
  induction r with
  | nil => rfl
  | cons p r2 ih =>
    have hstep : setKey (p :: r2) k v =
        (if (p.1 == k) = true then (p.1, v) else p) :: setKey r2 k v := rfl
    rw [hstep]
    show (if (p.1 == k) = true then (p.1, v) else p).1 :: keysOf (setKey r2 k v) =
      p.1 :: keysOf r2
    rw [ih]
    by_cases hc : (p.1 == k) = true <;> simp [hc]

theorem lookup_setKey_ne (r : Rec) (a k v : String) (h : a ≠ k) :
    List.lookup a (setKey r k v) = List.lookup a r := by
  induction r with
  | nil => rfl
  | cons p r2 ih =>
    obtain ⟨pk, pv⟩ := p
    have hstep : setKey ((pk, pv) :: r2) k v =
        (if (pk == k) = true then (pk, v) else (pk, pv)) :: setKey r2 k v := rfl
    rw [hstep]
    by_cases h1 : (pk == k) = true
    · have hpk : pk = k := by simpa using h1
      have han : (a == pk) = false := by simp [hpk, h]
      rw [if_pos h1]
      simp [List.lookup, han, ih]
    · rw [if_neg h1]
      cases h2 : (a == pk) <;> simp [List.lookup, h2, ih]

theorem goodRec_init (src : String) : goodRec src (initRec src) := ⟨rfl, rfl⟩

theorem goodRec_setKey (src : String) (c : Rec) (k v : String)
    (h : goodRec src c) (hk : k ≠ "source") : goodRec src (setKey c k v) := by
  refine ⟨?_, ?_⟩
  · rw [keysOf_setKey]; exact h.1
  · rw [lookup_setKey_ne c "source" k v (Ne.symm hk)]; exact h.2

theorem goodRec_applyField (src line : String) (c : Rec) (h : goodRec src c) :
    goodRec src (applyField line c) := by
  unfold applyField
  by_cases h1 : pyStartsWith line "Title:" = true
  · rw [if_pos h1]; exact goodRec_setKey src c _ _ h (by decide)
  rw [if_neg h1]
  by_cases h2 : pyStartsWith line "Company:" = true
  · rw [if_pos h2]; exact goodRec_setKey src c _ _ h (by decide)
  rw [if_neg h2]
  by_cases h3 : pyStartsWith line "Experience:" = true
  · rw [if_pos h3]; exact goodRec_setKey src c _ _ h (by decide)
  rw [if_neg h3]
  by_cases h4 : pyStartsWith line "Salary:" = true
  · rw [if_pos h4]; exact goodRec_setKey src c _ _ h (by decide)
  rw [if_neg h4]
  by_cases h5 : pyStartsWith line "Job Function:" = true
  · rw [if_pos h5]; exact goodRec_setKey src c _ _ h (by decide)
  rw [if_neg h5]
  by_cases h6 : pyStartsWith line "Industry:" = true
  · rw [if_pos h6]; exact goodRec_setKey src c _ _ h (by decide)
  rw [if_neg h6]
  by_cases h7 : pyStartsWith line "Specialization:" = true
  · rw [if_pos h7]; exact goodRec_setKey src c _ _ h (by decide)
  rw [if_neg h7]
  by_cases h8 : pyStartsWith line "Graduate Courses:" = true
  · rw [if_pos h8]; exact goodRec_setKey src c _ _ h (by decide)
  rw [if_neg h8]
  by_cases h9 : pyStartsWith line "Post Graduate Courses:" = true
  · rw [if_pos h9]; exact goodRec_setKey src c _ _ h (by decide)
  rw [if_neg h9]
  by_cases h10 : pyStartsWith line "Employment Type:" = true
  · rw [if_pos h10]; exact goodRec_setKey src c _ _ h (by decide)
  rw [if_neg h10]
  by_cases h11 : pyStartsWith line "Job Type:" = true
  · rw [if_pos h11]; exact goodRec_setKey src c _ _ h (by decide)
  rw [if_neg h11]
  by_cases h12 : pyStartsWith line "Gender:" = true
  · rw [if_pos h12]; exact goodRec_setKey src c _ _ h (by decide)
  rw [if_neg h12]
  by_cases h13 : pyStartsWith line "URL:" = true
  · rw [if_pos h13]; exact goodRec_setKey src c _ _ h (by decide)
  rw [if_neg h13]
  by_cases h14 : pyStartsWith line "Description:" = true
  · rw [if_pos h14]; exact goodRec_setKey src c _ _ h (by decide)
  rw [if_neg h14]
  by_cases h15 : pyStartsWith line "Skills:" = true
  · rw [if_pos h15]; exact goodRec_setKey src c _ _ h (by decide)
  rw [if_neg h15]
  exact h

theorem parseLines_length (src : String) :
    ∀ (lines : List String) (cur : Option Rec),
      (parseLines src lines cur).length =
        (lines.filter (fun l => pyStartsWith (rstripNl l) "Job #")).length +
          (match cur with | some _ => 1 | none => 0) := by
  intro lines
  induction lines with
  | nil => intro cur; cases cur <;> simp [parseLines]
  | cons raw rest ih =>
    intro cur
    unfold parseLines
    cases h : pyStartsWith (rstripNl raw) "Job #" with
    | true =>
      rw [if_pos rfl]
      cases cur with
      | none => simp [List.filter_cons, h, ih (some (initRec src))]
      | some c => simp [List.filter_cons, h, ih (some (initRec src))]
    | false =>
      rw [if_neg (by simp)]
      cases cur with
      | none => simp [List.filter_cons, h, ih none]
      | some c => simp [List.filter_cons, h, ih (some (applyField (rstripNl raw) c))]

theorem parseLines_good (src : String) :
    ∀ (lines : List String) (cur : Option Rec),
      (cur = none ∨ ∃ c, cur = some c ∧ goodRec src c) →
      ∀ r ∈ parseLines src lines cur, goodRec src r := by
  intro lines
  induction lines with
  | nil =>
    intro cur hcur r hr
    cases cur with
    | none => simp [parseLines] at hr
    | some c =>
      simp only [parseLines] at hr
      rcases List.mem_cons.1 hr with h1 | h1
      · subst h1
        rcases hcur with h2 | ⟨c2, h2, h3⟩
        · exact absurd h2 (by simp)
        · injection h2 with he
          rw [he]
          exact h3
      · simp at h1
  | cons raw rest ih =>
    intro cur hcur r hr
    unfold parseLines at hr
    by_cases h : pyStartsWith (rstripNl raw) "Job #" = true
    · rw [if_pos h] at hr
      cases cur with
      | none => exact ih (some (initRec src)) (Or.inr ⟨_, rfl, goodRec_init src⟩) r hr
      | some c =>
        rcases List.mem_cons.1 hr with h1 | h1
        · subst h1
          rcases hcur with h2 | ⟨c2, h2, h3⟩
          · exact absurd h2 (by simp)
          · injection h2 with he
            rw [he]
            exact h3
        · exact ih (some (initRec src)) (Or.inr ⟨_, rfl, goodRec_init src⟩) r h1
    · rw [if_neg h] at hr
      cases cur with
      | none => exact ih none (Or.inl rfl) r hr
      | some c =>
        have hg : goodRec src c := by
          rcases hcur with h2 | ⟨c2, h2, h3⟩
          · exact absurd h2 (by simp)
          · injection h2 with he
            rw [he]
            exact h3
        exact ih (some (applyField (rstripNl raw) c))
          (Or.inr ⟨_, rfl, goodRec_applyField src _ c hg⟩) r hr

/-- C10: `parse_jobs_file` emits exactly one record per `Job #` line, field
lines before the first `Job #` line are ignored, the record open at end of
file is still emitted (it is counted by its `Job #` line), and every emitted
record carries the full key schema with the caller-supplied source tag. -/
theorem C10_parse (src : String) :
    (∀ lines : List String,
      (parse_jobs_file src lines).length =
        (lines.filter (fun l => pyStartsWith (rstripNl l) "Job #")).length) ∧
    (∀ pre rest : List String,
      (∀ l ∈ pre, pyStartsWith (rstripNl l) "Job #" = false) →
      parse_jobs_file src (pre ++ rest) = parse_jobs_file src rest) ∧
    (∀ (lines : List String) (r : Rec), r ∈ parse_jobs_file src lines →
      keysOf r = parseKeys ∧ List.lookup "source" r = some src) := by
  refine ⟨?_, ?_, ?_⟩
  · intro lines
    have h := parseLines_length src lines none
    simpa using h
  · intro pre
    induction pre with
    | nil => intro rest _; rfl
    | cons l pre2 ih =>
      intro rest hall
      have hl := hall l (List.mem_cons_self _ _)
      show parseLines src (l :: (pre2 ++ rest)) none = parseLines src rest none
      simp only [parseLines]
      rw [if_neg (by simp [hl])]
      exact ih rest (fun l2 h2 => hall l2 (List.mem_cons_of_mem _ h2))
  · intro lines r hr
    exact parseLines_good src lines none (Or.inl rfl) r hr

/-- C10 witness: the theorem applied to a concrete file. -/
theorem C10_witness :
    (parse_jobs_file "TimesJobs" ["x", "Job #1\n", "Title: A", "Job #2"]).length = 2 ∧
    parse_jobs_file "TimesJobs" (["x"] ++ ["Job #1"]) =
      parse_jobs_file "TimesJobs" ["Job #1"] ∧
    keysOf (initRec "TimesJobs") = parseKeys ∧
    List.lookup "source" (initRec "TimesJobs") = some "TimesJobs" := by
  obtain ⟨h1, h2, h3⟩ := C10_parse "TimesJobs"
  have hlen : (parse_jobs_file "TimesJobs" ["x", "Job #1\n", "Title: A", "Job #2"]).length =
      2 := by
    rw [h1 ["x", "Job #1\n", "Title: A", "Job #2"]]
    decide
  have hmem := h3 ["Job #1"] (initRec "TimesJobs") (by decide)
  exact ⟨hlen, h2 ["x"] ["Job #1"] (by decide), hmem.1, hmem.2⟩

end JobScraper
